import Mathlib

/-!
# Verification of `aws-rds-signer` (`src/lib.rs`, `src/sign.rs`)

A shallow embedding of the RDS IAM token signer.  Rust `String`s are
modelled as `List Char`; `std::time::Duration` is modelled in whole
seconds (the signing settings render `X-Amz-Expires` in whole seconds).
Code of the repository itself (`Signer`, `SignerBuilder`, `fetch_token`,
the `Error` enum) is translated directly from `src/sign.rs` and
`src/lib.rs`.  The external crates it calls (`aws_sigv4`, `url`,
`aws_config`, `aws_credential_types`) are not part of the repository;
they are modelled from the specification's description of them, with a
doc comment starting `Modelled from the spec:` on each such definition.
-/

namespace RdsSigner

/-- Strings are modelled as lists of characters. -/
abbrev Str := List Char

/-- Converts a Lean string literal to the model's string type. -/
def str (s : String) : Str := s.data

/-! ## Decimal digits (used for the port and for `X-Amz-Expires`) -/

/-- The decimal digit character for `d % 10`-style values. -/
def digitChar (d : Nat) : Char :=
  if d = 0 then '0' else if d = 1 then '1' else if d = 2 then '2'
  else if d = 3 then '3' else if d = 4 then '4' else if d = 5 then '5'
  else if d = 6 then '6' else if d = 7 then '7' else if d = 8 then '8' else '9'

/-- Recognizes a decimal digit character. -/
def isDigitChar (c : Char) : Bool := decide (48 ≤ c.toNat ∧ c.toNat ≤ 57)

/-- Numeric value of a digit character. -/
def charVal (c : Char) : Nat := c.toNat - 48

/-- Fuel-indexed decimal rendering of a natural number (most significant
digit first); the fuel makes the definition structural so that it
evaluates inside the kernel. -/
def natToCharsAux : Nat → Nat → Str
  | 0, _ => []
  | fuel + 1, n =>
    if n < 10 then [digitChar n]
    else natToCharsAux fuel (n / 10) ++ [digitChar (n % 10)]

/-- Decimal rendering of a natural number, as `format!` renders a `u16`
and as the signing settings render the expiry seconds. -/
def natToChars (n : Nat) : Str := natToCharsAux (n + 1) n

/-- Accumulator-style decimal parsing of a digit string. -/
def charsToNatAux : Nat → Str → Nat
  | a, [] => a
  | a, c :: cs => charsToNatAux (10 * a + charVal c) cs

/-- Decimal value of a digit string (the port parser). -/
def charsToNat (l : Str) : Nat := charsToNatAux 0 l

/-! ## Percent-encodings

Modelled from the spec: the "URI component" percent-encoding rule used
by the canonical request (all reserved characters escaped except
`-`, `_`, `.`, `~`), and the form-urlencoded rule used by the `url`
crate's `query_pairs_mut().append_pair`.  Characters are encoded by code
point (the byte-level UTF-8 treatment of code points above 255 is not
modelled; every string the claims evaluate is ASCII). -/

/-- Uppercase hexadecimal digit for a value below 16. -/
def hexDigitUpper (d : Nat) : Char :=
  if d = 0 then '0' else if d = 1 then '1' else if d = 2 then '2'
  else if d = 3 then '3' else if d = 4 then '4' else if d = 5 then '5'
  else if d = 6 then '6' else if d = 7 then '7' else if d = 8 then '8'
  else if d = 9 then '9' else if d = 10 then 'A' else if d = 11 then 'B'
  else if d = 12 then 'C' else if d = 13 then 'D' else if d = 14 then 'E'
  else 'F'

/-- Modelled from the spec: a character is unreserved for the URI
component rule when it is alphanumeric or one of `-`, `_`, `.`, `~`. -/
def isUnreservedChar (c : Char) : Bool :=
  decide ((65 ≤ c.toNat ∧ c.toNat ≤ 90) ∨ (97 ≤ c.toNat ∧ c.toNat ≤ 122) ∨
    (48 ≤ c.toNat ∧ c.toNat ≤ 57) ∨ c = '-' ∨ c = '_' ∨ c = '.' ∨ c = '~')

/-- Modelled from the spec: URI-component encoding of one character. -/
def encodeChar (c : Char) : Str :=
  if isUnreservedChar c then [c]
  else ['%', hexDigitUpper (c.toNat / 16 % 16), hexDigitUpper (c.toNat % 16)]

/-- Modelled from the spec: URI-component percent-encoding of a string. -/
def uriComponentEncode (l : Str) : Str := l.foldr (fun c acc => encodeChar c ++ acc) []

/-- Modelled from the spec: form-urlencoded escaping of one character,
as used by the `url` crate when appending the signing query
parameters (alphanumerics and `*`, `-`, `.`, `_` are kept, a space
becomes `+`, everything else is percent-escaped). -/
def formEncodeChar (c : Char) : Str :=
  if (decide ((65 ≤ c.toNat ∧ c.toNat ≤ 90) ∨ (97 ≤ c.toNat ∧ c.toNat ≤ 122) ∨
      (48 ≤ c.toNat ∧ c.toNat ≤ 57) ∨ c = '*' ∨ c = '-' ∨ c = '.' ∨ c = '_')) then [c]
  else if c = ' ' then ['+']
  else ['%', hexDigitUpper (c.toNat / 16 % 16), hexDigitUpper (c.toNat % 16)]

/-- Modelled from the spec: form-urlencoded escaping of a string. -/
def formUrlEncode (l : Str) : Str := l.foldr (fun c acc => formEncodeChar c ++ acc) []

/-! ## Lexicographic order on strings and query pairs -/

/-- Lexicographic comparison of strings (true when the first argument
sorts at or before the second). -/
def strLe : Str → Str → Bool
  | [], _ => true
  | _ :: _, [] => false
  | a :: as, b :: bs => if a < b then true else if b < a then false else strLe as bs

/-- Query-pair comparison: by parameter name, ties broken by value. -/
def pairLe (p q : Str × Str) : Bool :=
  if p.1 = q.1 then strLe p.2 q.2 else strLe p.1 q.1

/-- The ordering relation on query pairs, as a proposition. -/
def PairLe (p q : Str × Str) : Prop := pairLe p q = true

instance : DecidableRel PairLe := fun p q => decEq (pairLe p q) true

/-! ## The URL model

Modelled from the spec: a simplified image of the `url` crate as the
code uses it.  `fetch_token` only ever builds `https` URLs with path
`/`, so a URL is a host, an optional port (`none` both for an absent
port and for the `https` default port 443, which the crate never
prints), and an optional raw query string.  Fragments are not modelled
separately (a `#` simply stays inside the raw query). -/

structure Url where
  host : Str
  port : Option Nat
  query : Option Str
deriving Repr, DecidableEq

/-- The characters at which the authority parser stops reading a host. -/
def isUrlDelim (c : Char) : Bool := decide (c = ':' ∨ c = '/' ∨ c = '?' ∨ c = '#')

/-- Modelled from the spec: characters that cannot appear in a valid URL
host (a simplification of the crate's forbidden-host-code-point set). -/
def isHostForbidden (c : Char) : Bool :=
  isUrlDelim c || decide (c = ' ' ∨ c = '@' ∨ c = '[' ∨ c = ']' ∨ c = '\\' ∨
    c = '%' ∨ c = '<' ∨ c = '>' ∨ c = '"' ∨ c = '|' ∨ c = '^')

/-- A character allowed inside a host. -/
def hostOk (c : Char) : Bool := !(isHostForbidden c)

/-- The characters of the literal `https://`. -/
def schemeChars : Str := ['h', 't', 't', 'p', 's', ':', '/', '/']

/-- Strips a leading `https://` from a string, failing otherwise. -/
def stripHttps : Str → Option Str
  | 'h' :: 't' :: 't' :: 'p' :: 's' :: ':' :: '/' :: '/' :: r => some r
  | _ => none

/-- Parses the remainder after the path slash: either nothing or a `?`
followed by the raw query. -/
def parseQueryRest : Str → Option (Option Str)
  | [] => some none
  | c :: q => if c = '?' then some (some q) else none

/-- Parses an optional `:port` (empty digit strings give no port, the
value must fit a port number, and the `https` default 443 is
normalized away) followed by the `/` path and query. -/
def parsePort (host ds r3 : Str) : Option Url :=
  match r3 with
  | [] => none
  | c :: r4 =>
    if c = '/' then
      match parseQueryRest r4 with
      | none => none
      | some q =>
        if ds = [] then some ⟨host, none, q⟩
        else if charsToNat ds ≤ 65535 then
          some ⟨host, if charsToNat ds = 443 then none else some (charsToNat ds), q⟩
        else none
    else none

/-- Dispatches on the delimiter that ended the host. -/
def parseAfterHost (host rest : Str) : Option Url :=
  match rest with
  | [] => none
  | c :: r2 =>
    if c = ':' then parsePort host (r2.takeWhile isDigitChar) (r2.dropWhile isDigitChar)
    else if c = '/' then (parseQueryRest r2).map (fun q => ⟨host, none, q⟩)
    else none

/-- Parses the authority and the rest of an `https` URL body. -/
def parseAuthority (r : Str) : Option Url :=
  if r.takeWhile (fun c => !(isUrlDelim c)) = [] then none
  else if (r.takeWhile (fun c => !(isUrlDelim c))).all hostOk = false then none
  else parseAfterHost (r.takeWhile (fun c => !(isUrlDelim c)))
    (r.dropWhile (fun c => !(isUrlDelim c)))

/-- Modelled from the spec: `url::Url::parse` restricted to the shape of
URL this code produces. -/
def parseUrl (l : Str) : Option Url :=
  Option.bind (stripHttps l) parseAuthority

/-- Renders an optional port. -/
def portPart : Option Nat → Str
  | none => []
  | some n => ':' :: natToChars n

/-- Renders an optional raw query. -/
def queryPart : Option Str → Str
  | none => []
  | some q => '?' :: q

/-- The part of a serialized URL after the `https://` scheme marker. -/
def serializeTail (u : Url) : Str :=
  u.host ++ portPart u.port ++ '/' :: queryPart u.query

/-- Modelled from the spec: `url::Url::to_string` on the URLs this code
builds. -/
def serializeUrl (u : Url) : Str := schemeChars ++ serializeTail u

/-- Modelled from the spec: `url.query_pairs_mut().append_pair(name,
value)` — appends a form-urlencoded `name=value` to the raw query. -/
def appendPair (u : Url) (name value : Str) : Url :=
  let pair := formUrlEncode name ++ '=' :: formUrlEncode value
  { u with query := some (match u.query with
      | none => pair
      | some q => if q = [] then pair else q ++ '&' :: pair) }

/-- Appends a list of query pairs in order (the `for` loop over
`signing_instructions.params()`). -/
def appendAll (u : Url) (ps : List (Str × Str)) : Url :=
  ps.foldl (fun a p => appendPair a p.1 p.2) u

/-- A URL value that the parser could have produced: non-empty valid
host and a normalized in-range port. -/
def validUrl (u : Url) : Bool :=
  decide (u.host ≠ []) && u.host.all hostOk &&
    (match u.port with | none => true | some n => decide (n ≤ 65535 ∧ n ≠ 443))

/-! ## The repository's data model (`src/lib.rs`, `src/sign.rs`) -/

/-- The error enum of `src/lib.rs`. -/
inductive Error where
  | ParseError : Str → Error
  | SignerError : Str → Error
  | EnvVarError : Str → Error
deriving Repr, DecidableEq

/-- The `Signer` configuration struct of `src/sign.rs` (lines 21-37);
`expires_in` is a duration in whole seconds. -/
structure Signer where
  expires_in : Nat
  host : Str
  port : Nat
  user : Str
  region : Option Str
deriving Repr, DecidableEq

/-- `impl Default for Signer` (`src/sign.rs` lines 39-49). -/
def Signer.default : Signer :=
  { expires_in := 900, host := str "localhost", port := 5432,
    user := str "postgres", region := none }

/-- The builder wrapper struct (`src/sign.rs` lines 56-58). -/
structure SignerBuilder where
  signer : Signer
deriving Repr, DecidableEq

/-- `SignerBuilder::new` (`src/sign.rs` lines 63-67). -/
def SignerBuilder.new : SignerBuilder := ⟨Signer.default⟩

/-- `SignerBuilder::expires_in` (`src/sign.rs` lines 74-77). -/
def SignerBuilder.expires_in (self : SignerBuilder) (v : Nat) : SignerBuilder :=
  ⟨{ self.signer with expires_in := v }⟩

/-- `SignerBuilder::host` (`src/sign.rs` lines 84-87). -/
def SignerBuilder.host (self : SignerBuilder) (v : Str) : SignerBuilder :=
  ⟨{ self.signer with host := v }⟩

/-- `SignerBuilder::port` (`src/sign.rs` lines 94-97). -/
def SignerBuilder.port (self : SignerBuilder) (v : Nat) : SignerBuilder :=
  ⟨{ self.signer with port := v }⟩

/-- `SignerBuilder::region` (`src/sign.rs` lines 104-107): wraps the
value in `Some`. -/
def SignerBuilder.region (self : SignerBuilder) (v : Str) : SignerBuilder :=
  ⟨{ self.signer with region := some v }⟩

/-- `SignerBuilder::user` (`src/sign.rs` lines 114-117). -/
def SignerBuilder.user (self : SignerBuilder) (v : Str) : SignerBuilder :=
  ⟨{ self.signer with user := v }⟩

/-- `SignerBuilder::build` (`src/sign.rs` lines 121-123): returns the
wrapped signer with no validation. -/
def SignerBuilder.build (self : SignerBuilder) : Signer := self.signer

/-- `Signer::builder` (`src/sign.rs` lines 129-131). -/
def Signer.builder : SignerBuilder := SignerBuilder.new

/-- Modelled from the spec: the credential triple supplied by the
external credential source. -/
structure Credentials where
  access_key_id : Str
  secret_access_key : Str
  session_token : Option Str

/-- Modelled from the spec: the signing timestamp, already formatted as
the external library formats it (`date` is `YYYYMMDD`, `stamp` is
`YYYYMMDDTHHMMSSZ`). -/
structure SigTime where
  date : Str
  stamp : Str

/-- Modelled from the spec: the external capabilities `fetch_token`
consumes — the keyed hash and payload hash of `aws_sigv4`, and the
fallible signing-side steps (`SigningParams::build`,
`SignableRequest::new` and `sign`), collapsed into one outcome keyed on
the assembled URL since all three map their errors to `SignerError`. -/
structure Externals where
  hmac : Str → Str → Str
  sha256hex : Str → Str
  signResult : Str → Option Str

/-- Modelled from the spec: the ambient AWS configuration loaded by
`aws_config::load_defaults` — whether a credentials provider exists,
the outcome of `provide_credentials`, and the ambient region. -/
structure Env where
  providerFound : Bool
  credResult : Except Str Credentials
  ambientRegion : Option Str

/-! ## The signing engine (spec-modelled image of `aws_sigv4`) -/

/-- Modelled from the spec: the four-step HMAC chain deriving the
request-scoped signing key (`kDate`, `kRegion`, `kService`,
`kSigning`). -/
def deriveSigningKey (hmac : Str → Str → Str) (secret date region service : Str) : Str :=
  hmac (hmac (hmac (hmac (str "AWS4" ++ secret) date) region) service) (str "aws4_request")

/-- Modelled from the spec: the credential scope
`date/region/service/aws4_request`. -/
def credScope (date region service : Str) : Str :=
  date ++ '/' :: region ++ '/' :: service ++ str "/aws4_request"

/-- Modelled from the spec: the canonical query pairs — URI-component
encoded, then sorted lexicographically by name with ties broken by
value. -/
def canonicalQueryPairs (user : Str) : List (Str × Str) :=
  List.insertionSort PairLe
    [(uriComponentEncode (str "Action"), uriComponentEncode (str "connect")),
     (uriComponentEncode (str "DBUser"), uriComponentEncode user)]

/-- Modelled from the spec: the canonical query string. -/
def canonicalQueryString (user : Str) : Str :=
  List.intercalate ['&'] ((canonicalQueryPairs user).map (fun p => p.1 ++ '=' :: p.2))

/-- Modelled from the spec: the newline-joined canonical request —
method, path `/`, canonical query, the `host` header block, the
signed-headers list and the hash of the empty payload. -/
def canonicalRequest (ext : Externals) (host : Str) (port : Nat) (user : Str) : Str :=
  str "GET" ++ '\n' :: '/' :: '\n' ::
    (canonicalQueryString user ++ '\n' ::
      (str "host:" ++ host ++ ':' :: natToChars port ++ '\n' :: '\n' ::
        (str "host" ++ '\n' :: ext.sha256hex [])))

/-- Modelled from the spec: the string to sign — algorithm id,
timestamp, credential scope and the hash of the canonical request. -/
def stringToSign (ext : Externals) (t : SigTime) (scope creq : Str) : Str :=
  str "AWS4-HMAC-SHA256" ++ '\n' :: t.stamp ++ '\n' :: scope ++ '\n' :: ext.sha256hex creq

/-- Modelled from the spec: the final signature value
`hex(HMAC(kSigning, stringToSign))`; the abstract `hmac` capability
already yields the hex form. -/
def signatureValue (ext : Externals) (c : Credentials) (region : Str) (t : SigTime)
    (service host : Str) (port : Nat) (user : Str) : Str :=
  ext.hmac (deriveSigningKey ext.hmac c.secret_access_key t.date region service)
    (stringToSign ext t (credScope t.date region service) (canonicalRequest ext host port user))

/-- Modelled from the spec: the query parameters the signing library
appends for query-parameter signing — algorithm, credential, date,
expiry, signed headers, the session token when present, and the
signature computed from the derived key. -/
def signingQueryParams (ext : Externals) (c : Credentials) (region : Str) (t : SigTime)
    (expires : Nat) (service host : Str) (port : Nat) (user : Str) : List (Str × Str) :=
  ([(str "X-Amz-Algorithm", str "AWS4-HMAC-SHA256"),
    (str "X-Amz-Credential", c.access_key_id ++ '/' :: credScope t.date region service),
    (str "X-Amz-Date", t.stamp),
    (str "X-Amz-Expires", natToChars expires),
    (str "X-Amz-SignedHeaders", str "host")] ++
   (match c.session_token with | none => [] | some tk => [(str "X-Amz-Security-Token", tk)])) ++
  [(str "X-Amz-Signature", signatureValue ext c region t service host port user)]

/-- Selects the signing query parameters that neither are
`X-Amz-Expires` nor derived from it through the signature. -/
def nonDerived (p : Str × Str) : Bool :=
  !(decide (p.1 = str "X-Amz-Expires")) && !(decide (p.1 = str "X-Amz-Signature"))

/-! ## `fetch_token` (`src/sign.rs` lines 146-198) -/

/-- The fixed query of the assembled URL format string
`https://{hostname}:{port}/?Action=connect&DBUser={username}`. -/
def baseQuery (user : Str) : Str := str "Action=connect&DBUser=" ++ user

/-- The URL string assembled at `src/sign.rs` lines 175-180. -/
def assembledUrl (s : Signer) : Str :=
  schemeChars ++ s.host ++ ':' :: natToChars s.port ++ '/' :: '?' :: baseQuery s.user

/-- The message of the modelled URL-reparse failure (`src/sign.rs`
line 190); the concrete wording of `url::ParseError` is not modelled. -/
def parseFailMsg : Str := str "invalid URL"

/-- Region resolution of `src/sign.rs` lines 155-159: the configured
region, else the ambient region, else the literal `us-east-1`. -/
def resolveRegion (configured ambient : Option Str) : Str :=
  configured.getD (ambient.getD (str "us-east-1"))

/-- The signing stages of `fetch_token` after credentials and region are
in hand (`src/sign.rs` lines 161-197): run the external signing steps
(any failure becomes `SignerError`), reparse the assembled URL (failure
becomes `ParseError`), append the signing query parameters, serialize,
and strip the first `https://`.len() characters. -/
def fetchTokenStages (s : Signer) (ext : Externals) (c : Credentials) (t : SigTime)
    (region service : Str) : Except Error Str :=
  match ext.signResult (assembledUrl s) with
  | some e => .error (.SignerError e)
  | none =>
    match parseUrl (assembledUrl s) with
    | none => .error (.ParseError parseFailMsg)
    | some u =>
      .ok ((serializeUrl (appendAll u
        (signingQueryParams ext c region t s.expires_in service s.host s.port s.user))).drop 8)

/-- `fetch_token` after the credentials step: resolves the region and
signs with the fixed service name `rds-db` (`src/sign.rs` lines
155-197). -/
def fetchTokenCore (s : Signer) (ext : Externals) (c : Credentials) (ambient : Option Str)
    (t : SigTime) : Except Error Str :=
  fetchTokenStages s ext c t (resolveRegion s.region ambient) (str "rds-db")

/-- `Signer::fetch_token` (`src/sign.rs` lines 146-198): a missing
credentials provider or a failed credential fetch becomes
`SignerError`, then the signing stages run. -/
def fetchToken (s : Signer) (ext : Externals) (env : Env) (t : SigTime) : Except Error Str :=
  match env.providerFound with
  | false => .error (.SignerError (str "no credentials provider found"))
  | true =>
    match env.credResult with
    | .error e => .error (.SignerError e)
    | .ok c => fetchTokenCore s ext c env.ambientRegion t

/-- A call of `fetch_token` at call index `i` under a clock that yields
the time for each call (`SystemTime::now()` at `src/sign.rs` line
170). -/
def fetchTokenAtCall (s : Signer) (ext : Externals) (env : Env) (clock : Nat → SigTime)
    (i : Nat) : Except Error Str :=
  fetchToken s ext env (clock i)

/-- Does the second string contain the first as a contiguous
substring? -/
def containsSeq (needle : Str) : Str → Bool
  | [] => List.isPrefixOf needle []
  | c :: rest => List.isPrefixOf needle (c :: rest) || containsSeq needle rest

/-! ## Concrete inputs used by witnesses and counterexamples -/

/-- Concrete external capabilities with placeholder hashes and a signing
step that always succeeds. -/
def cExt : Externals :=
  { hmac := fun _ _ => str "MAC", sha256hex := fun _ => str "HH",
    signResult := fun _ => none }

/-- Concrete credential triple without a session token. -/
def cCreds : Credentials :=
  { access_key_id := str "AKIAEXAMPLE", secret_access_key := str "SECRET",
    session_token := none }

/-- Concrete ambient configuration with a provider, successful
credentials and no ambient region. -/
def cEnv : Env :=
  { providerFound := true, credResult := .ok cCreds, ambientRegion := none }

/-- Concrete frozen signing time. -/
def cTime : SigTime := { date := str "20240115", stamp := str "20240115T100000Z" }

/-- Concrete well-formed signer configuration. -/
def cSigner : Signer :=
  { expires_in := 900, host := str "mydb.example.com", port := 5432,
    user := str "appuser", region := some (str "us-east-1") }

/-- The token produced on the concrete configuration. -/
def cTok : Str :=
  match fetchToken cSigner cExt cEnv cTime with
  | .ok l => l
  | .error _ => []

/-- Concrete signer whose host cannot form a URL authority (it contains
a space). -/
def cBadSigner : Signer :=
  { expires_in := 900, host := str "bad host", port := 5432,
    user := str "appuser", region := some (str "us-east-1") }

/-- Concrete signer whose database user contains a slash, a character
the URI-component rule escapes but the output URL keeps verbatim. -/
def cSlashSigner : Signer :=
  { expires_in := 900, host := str "mydb.example.com", port := 5432,
    user := str "a/b", region := some (str "us-east-1") }

/-! ## Order facts for the canonical-query sort -/

/-- Totality of the lexicographic comparison. -/
theorem strLe_total (a : Str) : ∀ b, strLe a b = true ∨ strLe b a = true := by
  induction a with
  | nil => intro b; exact Or.inl rfl
  | cons x xs ih =>
    intro b
    cases b with
    | nil => exact Or.inr rfl
    | cons y ys =>
      rcases lt_trichotomy x y with hxy | hxy | hxy
      · left; simp [strLe, hxy]
      · subst hxy
        rcases ih ys with h | h
        · left; simp [strLe, h]
        · right; simp [strLe, h]
      · right; simp [strLe, hxy]

/-- Transitivity of the lexicographic comparison. -/
theorem strLe_trans (a : Str) :
    ∀ b c, strLe a b = true → strLe b c = true → strLe a c = true := by
  induction a with
  | nil => intro b c _ _; rfl
  | cons x xs ih =>
    intro b c hab hbc
    cases b with
    | nil => simp [strLe] at hab
    | cons y ys =>
      cases c with
      | nil => simp [strLe] at hbc
      | cons z zs =>
        simp only [strLe] at hab hbc ⊢
        rcases lt_trichotomy x y with hxy | hxy | hxy
        · rcases lt_trichotomy y z with hyz | hyz | hyz
          · simp [lt_trans hxy hyz]
          · subst hyz; simp [hxy]
          · rw [if_neg (asymm hyz), if_pos hyz] at hbc
            exact absurd hbc (by simp)
        · subst hxy
          rcases lt_trichotomy x z with hyz | hyz | hyz
          · simp [hyz]
          · subst hyz
            rw [if_neg (lt_irrefl x), if_neg (lt_irrefl x)] at hab hbc ⊢
            exact ih ys zs hab hbc
          · rw [if_neg (asymm hyz), if_pos hyz] at hbc
            exact absurd hbc (by simp)
        · rw [if_neg (asymm hxy), if_pos hxy] at hab
          exact absurd hab (by simp)

/-- Antisymmetry of the lexicographic comparison. -/
theorem strLe_antisymm (a : Str) :
    ∀ b, strLe a b = true → strLe b a = true → a = b := by
  induction a with
  | nil =>
    intro b _ hba
    cases b with
    | nil => rfl
    | cons y ys => simp [strLe] at hba
  | cons x xs ih =>
    intro b hab hba
    cases b with
    | nil => simp [strLe] at hab
    | cons y ys =>
      simp only [strLe] at hab hba
      rcases lt_trichotomy x y with hxy | hxy | hxy
      · rw [if_neg (asymm hxy), if_pos hxy] at hba
        exact absurd hba (by simp)
      · subst hxy
        rw [if_neg (lt_irrefl x), if_neg (lt_irrefl x)] at hab hba
        rw [ih ys hab hba]
      · rw [if_neg (asymm hxy), if_pos hxy] at hab
        exact absurd hab (by simp)

instance : IsTotal (Str × Str) PairLe := by
  constructor
  intro p q
  unfold PairLe pairLe
  by_cases h : p.1 = q.1
  · simp only [h, if_pos rfl]
    exact strLe_total p.2 q.2
  · rw [if_neg h, if_neg (Ne.symm h)]
    exact strLe_total p.1 q.1

instance : IsTrans (Str × Str) PairLe := by
  constructor
  intro p q r hpq hqr
  unfold PairLe pairLe at hpq hqr ⊢
  by_cases h1 : p.1 = q.1 <;> by_cases h2 : q.1 = r.1
  · rw [if_pos h1] at hpq
    rw [if_pos h2] at hqr
    rw [if_pos (h1.trans h2)]
    exact strLe_trans _ _ _ hpq hqr
  · rw [if_pos h1] at hpq
    rw [if_neg h2] at hqr
    rw [if_neg (fun hh => h2 (h1 ▸ hh)), h1]
    exact hqr
  · rw [if_neg h1] at hpq
    rw [if_pos h2] at hqr
    rw [if_neg (fun hh => h1 (hh.trans h2.symm)), ← h2]
    exact hpq
  · by_cases h3 : p.1 = r.1
    · exfalso
      rw [if_neg h1] at hpq
      rw [if_neg h2] at hqr
      rw [h3] at hpq
      exact h2 (strLe_antisymm _ _ hqr hpq)
    · rw [if_neg h1] at hpq
      rw [if_neg h2] at hqr
      rw [if_neg h3]
      exact strLe_trans _ _ _ hpq hqr

/-! ## Digit-rendering lemmas -/

/-- Every rendered digit character is a digit. -/
theorem isDigitChar_digitChar (d : Nat) : isDigitChar (digitChar d) = true := by
  unfold digitChar
  split_ifs <;> decide

/-- Rendering then valuing a digit below ten is the identity. -/
theorem charVal_digitChar (d : Nat) (h : d ≤ 9) : charVal (digitChar d) = d := by
  interval_cases d <;> decide

/-- Every character of a decimal rendering is a digit. -/
theorem natToCharsAux_digits (fuel : Nat) :
    ∀ n c, c ∈ natToCharsAux fuel n → isDigitChar c = true := by
  induction fuel with
  | zero => intro n c h; simp [natToCharsAux] at h
  | succ f ih =>
    intro n c h
    unfold natToCharsAux at h
    by_cases hn : n < 10
    · rw [if_pos hn] at h
      rw [List.mem_singleton.mp h]
      exact isDigitChar_digitChar n
    · rw [if_neg hn] at h
      rcases List.mem_append.mp h with h | h
      · exact ih _ c h
      · rw [List.mem_singleton.mp h]
        exact isDigitChar_digitChar _

/-- A decimal rendering with positive fuel is non-empty. -/
theorem natToCharsAux_ne_nil (fuel n : Nat) (h : 0 < fuel) : natToCharsAux fuel n ≠ [] := by
  cases fuel with
  | zero => omega
  | succ f =>
    unfold natToCharsAux
    by_cases hn : n < 10
    · rw [if_pos hn]; simp
    · rw [if_neg hn]; simp

/-- Valuing after appending one digit character multiplies by ten. -/
theorem charsToNatAux_append (l : Str) :
    ∀ a c, charsToNatAux a (l ++ [c]) = 10 * charsToNatAux a l + charVal c := by
  induction l with
  | nil => intro a c; rfl
  | cons x xs ih =>
    intro a c
    show charsToNatAux (10 * a + charVal x) (xs ++ [c]) =
      10 * charsToNatAux (10 * a + charVal x) xs + charVal c
    exact ih _ c

/-- Valuing a one-character string gives the digit value. -/
theorem charsToNat_singleton (c : Char) : charsToNat [c] = charVal c := by
  show 10 * 0 + charVal c = charVal c
  omega

/-- Parsing back a decimal rendering recovers the number. -/
theorem charsToNat_natToCharsAux (fuel : Nat) :
    ∀ n, n < fuel → charsToNat (natToCharsAux fuel n) = n := by
  induction fuel with
  | zero => intro n h; omega
  | succ f ih =>
    intro n h
    unfold natToCharsAux
    by_cases hn : n < 10
    · rw [if_pos hn, charsToNat_singleton, charVal_digitChar n (by omega)]
    · rw [if_neg hn]
      have hd : n / 10 < f := by
        have := Nat.div_lt_self (show 0 < n by omega) (show 1 < 10 by omega)
        omega
      have ihr := ih (n / 10) hd
      unfold charsToNat at ihr ⊢
      rw [charsToNatAux_append, ihr, charVal_digitChar _ (show n % 10 ≤ 9 by omega)]
      omega

/-- Every character of `natToChars n` is a digit. -/
theorem natToChars_digits (n : Nat) : ∀ c ∈ natToChars n, isDigitChar c = true :=
  fun c hc => natToCharsAux_digits (n + 1) n c hc

/-- `natToChars n` is never empty. -/
theorem natToChars_ne_nil (n : Nat) : natToChars n ≠ [] :=
  natToCharsAux_ne_nil (n + 1) n (by omega)

/-- Round trip between rendering and parsing decimals. -/
theorem charsToNat_natToChars (n : Nat) : charsToNat (natToChars n) = n :=
  charsToNat_natToCharsAux (n + 1) n (by omega)

/-! ## Character-class lemmas -/

/-- Digits are not URL delimiters. -/
theorem isDigitChar_not_delim {c : Char} (h : isDigitChar c = true) : isUrlDelim c = false := by
  unfold isUrlDelim
  rw [decide_eq_false_iff_not]
  rintro (rfl | rfl | rfl | rfl) <;> exact absurd h (by decide)

/-- Valid host characters are not URL delimiters. -/
theorem hostOk_not_delim {c : Char} (h : hostOk c = true) : isUrlDelim c = false := by
  unfold hostOk isHostForbidden at h
  cases hd : isUrlDelim c
  · rfl
  · rw [hd] at h
    simp at h

/-- What a non-delimiter cannot be. -/
theorem not_delim_ne {c : Char} (h : isUrlDelim c = false) :
    c ≠ ':' ∧ c ≠ '/' ∧ c ≠ '?' ∧ c ≠ '#' := by
  refine ⟨?_, ?_, ?_, ?_⟩ <;> rintro rfl <;> exact absurd h (by decide)

/-! ## Parsing and serialization lemmas -/

/-- `stripHttps` undoes prepending the scheme characters. -/
theorem stripHttps_scheme (r : Str) : stripHttps (schemeChars ++ r) = some r := rfl

/-- Dropping eight characters from a serialized URL leaves its tail. -/
theorem serializeUrl_drop (u : Url) : (serializeUrl u).drop 8 = serializeTail u := rfl

/-- The scheme literal written as a Lean string. -/
theorem str_https : str "https://" = schemeChars := rfl

/-- The host scanner stops at a colon. -/
theorem takeWhile_nondelim_colon (l : Str) :
    List.takeWhile (fun c => !(isUrlDelim c)) (':' :: l) = [] := rfl

/-- The host scanner leaves a colon-headed rest in place. -/
theorem dropWhile_nondelim_colon (l : Str) :
    List.dropWhile (fun c => !(isUrlDelim c)) (':' :: l) = ':' :: l := rfl

/-- The host scanner stops at a slash. -/
theorem takeWhile_nondelim_slash (l : Str) :
    List.takeWhile (fun c => !(isUrlDelim c)) ('/' :: l) = [] := rfl

/-- The host scanner leaves a slash-headed rest in place. -/
theorem dropWhile_nondelim_slash (l : Str) :
    List.dropWhile (fun c => !(isUrlDelim c)) ('/' :: l) = '/' :: l := rfl

/-- The digit scanner stops at a slash. -/
theorem takeWhile_digit_slash (l : Str) :
    List.takeWhile isDigitChar ('/' :: l) = [] := rfl

/-- The digit scanner leaves a slash-headed rest in place. -/
theorem dropWhile_digit_slash (l : Str) :
    List.dropWhile isDigitChar ('/' :: l) = '/' :: l := rfl

/-- Valid host characters pass the host scanner. -/
theorem host_nondelim {host : Str} (hall : host.all hostOk = true) :
    ∀ c ∈ host, (!(isUrlDelim c)) = true := by
  intro c hc
  rw [hostOk_not_delim (List.all_eq_true.mp hall c hc)]
  rfl

/-- `appendPair` does not change the host. -/
theorem appendPair_host (u : Url) (n v : Str) : (appendPair u n v).host = u.host := rfl

/-- `appendPair` does not change the port. -/
theorem appendPair_port (u : Url) (n v : Str) : (appendPair u n v).port = u.port := rfl

/-- `appendAll` does not change the host. -/
theorem appendAll_host (ps : List (Str × Str)) : ∀ u, (appendAll u ps).host = u.host := by
  induction ps with
  | nil => intro u; rfl
  | cons p ps ih =>
    intro u
    exact (ih (appendPair u p.1 p.2)).trans (appendPair_host u p.1 p.2)

/-- `appendAll` does not change the port. -/
theorem appendAll_port (ps : List (Str × Str)) : ∀ u, (appendAll u ps).port = u.port := by
  induction ps with
  | nil => intro u; rfl
  | cons p ps ih =>
    intro u
    exact (ih (appendPair u p.1 p.2)).trans (appendPair_port u p.1 p.2)

/-- `appendAll` preserves URL validity. -/
theorem appendAll_valid {u : Url} (ps : List (Str × Str)) (h : validUrl u = true) :
    validUrl (appendAll u ps) = true := by
  unfold validUrl at h ⊢
  rw [appendAll_host, appendAll_port]
  exact h

/-- Every parsed URL is valid. -/
theorem parseUrl_valid {l : Str} {u : Url} (h : parseUrl l = some u) : validUrl u = true := by
  unfold parseUrl at h
  cases hs : stripHttps l with
  | none => rw [hs] at h; exact absurd h (by simp)
  | some r =>
    rw [hs] at h
    simp only [Option.some_bind] at h
    unfold parseAuthority at h
    by_cases h1 : r.takeWhile (fun c => !(isUrlDelim c)) = []
    · rw [if_pos h1] at h; exact absurd h (by simp)
    · rw [if_neg h1] at h
      by_cases h2 : (r.takeWhile (fun c => !(isUrlDelim c))).all hostOk = false
      · rw [if_pos h2] at h; exact absurd h (by simp)
      · rw [if_neg h2] at h
        have hall : (r.takeWhile (fun c => !(isUrlDelim c))).all hostOk = true :=
          Bool.of_not_eq_false h2
        cases hrest : r.dropWhile (fun c => !(isUrlDelim c)) with
        | nil =>
          rw [hrest] at h
          simp only [parseAfterHost] at h
          exact absurd h (by simp)
        | cons c r2 =>
          rw [hrest] at h
          simp only [parseAfterHost] at h
          by_cases hc : c = ':'
          · rw [if_pos hc] at h
            cases hr3 : r2.dropWhile isDigitChar with
            | nil =>
              rw [hr3] at h
              simp only [parsePort] at h
              exact absurd h (by simp)
            | cons d r4 =>
              rw [hr3] at h
              simp only [parsePort] at h
              by_cases hd : d = '/'
              · rw [if_pos hd] at h
                cases hq : parseQueryRest r4 with
                | none =>
                  rw [hq] at h
                  simp only [] at h
                  exact absurd h (by simp)
                | some q =>
                  rw [hq] at h
                  simp only [] at h
                  by_cases hds : r2.takeWhile isDigitChar = []
                  · rw [if_pos hds] at h
                    obtain rfl := Option.some.inj h
                    unfold validUrl
                    simp [h1, hall]
                  · rw [if_neg hds] at h
                    by_cases hle : charsToNat (r2.takeWhile isDigitChar) ≤ 65535
                    · rw [if_pos hle] at h
                      obtain rfl := Option.some.inj h
                      unfold validUrl
                      by_cases h443 : charsToNat (r2.takeWhile isDigitChar) = 443
                      · simp [h1, hall, h443]
                      · simp [h1, hall, h443, hle]
                    · rw [if_neg hle] at h; exact absurd h (by simp)
              · rw [if_neg hd] at h; exact absurd h (by simp)
          · rw [if_neg hc] at h
            by_cases hsl : c = '/'
            · rw [if_pos hsl] at h
              cases hq : parseQueryRest r2 with
              | none => rw [hq] at h; exact absurd h (by simp)
              | some q =>
                rw [hq] at h
                obtain rfl := Option.some.inj (by simpa using h)
                unfold validUrl
                simp [h1, hall]
            · rw [if_neg hsl] at h; exact absurd h (by simp)


/-- Appending a query pair extends a non-empty raw query with `&`. -/
theorem appendPair_query {u : Url} {q0 : Str} (hq : u.query = some q0) (hne : q0 ≠ [])
    (n v : Str) :
    (appendPair u n v).query =
      some (q0 ++ '&' :: (formUrlEncode n ++ '=' :: formUrlEncode v)) := by
  unfold appendPair
  simp only [hq]
  rw [if_neg hne]

/-- Appending query pairs only ever extends a non-empty raw query. -/
theorem appendAll_query_extends (ps : List (Str × Str)) :
    ∀ u q0, u.query = some q0 → q0 ≠ [] → ∃ r, (appendAll u ps).query = some (q0 ++ r) := by
  induction ps with
  | nil =>
    intro u q0 hq _
    exact ⟨[], by rw [List.append_nil]; exact hq⟩
  | cons p ps ih =>
    intro u q0 hq hne
    have hstep := appendPair_query hq hne p.1 p.2
    obtain ⟨r, hr⟩ := ih (appendPair u p.1 p.2) _ hstep (by simp)
    refine ⟨'&' :: (formUrlEncode p.1 ++ '=' :: formUrlEncode p.2) ++ r, ?_⟩
    show (appendAll (appendPair u p.1 p.2) ps).query = _
    rw [hr]
    simp [List.append_assoc]

/-- The authority parser undoes serialization of a valid URL body. -/
theorem parseAuthority_shape (host : Str) (hne : host ≠ []) (hall : host.all hostOk = true)
    (port : Option Nat) (query : Option Str)
    (hport : ∀ n, port = some n → n ≤ 65535 ∧ n ≠ 443) :
    parseAuthority (host ++ (portPart port ++ '/' :: queryPart query)) =
      some ⟨host, port, query⟩ := by
  have hnd := host_nondelim hall
  cases port with
  | none =>
    simp only [portPart, List.nil_append]
    unfold parseAuthority
    rw [List.takeWhile_append_of_pos hnd, List.dropWhile_append_of_pos hnd,
        takeWhile_nondelim_slash, dropWhile_nondelim_slash, List.append_nil]
    rw [if_neg hne, if_neg (by simp [hall])]
    simp only [parseAfterHost]
    simp only [if_true]
    cases query with
    | none => rfl
    | some q => rfl
  | some n =>
    obtain ⟨hle, h443⟩ := hport n rfl
    simp only [portPart, List.cons_append]
    unfold parseAuthority
    rw [List.takeWhile_append_of_pos hnd, List.dropWhile_append_of_pos hnd,
        takeWhile_nondelim_colon, dropWhile_nondelim_colon, List.append_nil]
    rw [if_neg hne, if_neg (by simp [hall])]
    simp only [parseAfterHost]
    simp only [if_true]
    rw [List.takeWhile_append_of_pos (natToChars_digits n),
        List.dropWhile_append_of_pos (natToChars_digits n),
        takeWhile_digit_slash, dropWhile_digit_slash, List.append_nil]
    simp only [parsePort]
    simp only [if_true]
    cases query with
    | none =>
      simp only [queryPart, parseQueryRest]
      rw [if_neg (natToChars_ne_nil n), charsToNat_natToChars, if_pos hle, if_neg h443]
    | some q =>
      simp only [queryPart, parseQueryRest]
      simp only [if_true]
      rw [if_neg (natToChars_ne_nil n), charsToNat_natToChars, if_pos hle, if_neg h443]

/-- Parsing undoes serialization on valid URLs. -/
theorem parse_serialize {u : Url} (h : validUrl u = true) :
    parseUrl (serializeUrl u) = some u := by
  obtain ⟨host, port, query⟩ := u
  simp only [validUrl, Bool.and_eq_true, decide_eq_true_eq] at h
  obtain ⟨⟨hne, hall⟩, hport⟩ := h
  unfold serializeUrl serializeTail parseUrl
  simp only [List.append_assoc]
  rw [stripHttps_scheme]
  simp only [Option.some_bind]
  refine parseAuthority_shape host hne hall port query ?_
  intro n hn
  subst hn
  simp only [decide_eq_true_eq] at hport
  exact hport

/-- Parsing the assembled URL of a well-formed configuration. -/
theorem parseUrl_assembled (s : Signer) (hne : s.host ≠ []) (hall : s.host.all hostOk = true)
    (hp : s.port ≤ 65535) :
    parseUrl (assembledUrl s) =
      some ⟨s.host, if s.port = 443 then none else some s.port, some (baseQuery s.user)⟩ := by
  unfold assembledUrl parseUrl
  simp only [List.append_assoc, List.cons_append]
  rw [stripHttps_scheme]
  simp only [Option.some_bind]
  have hnd := host_nondelim hall
  unfold parseAuthority
  rw [List.takeWhile_append_of_pos hnd, List.dropWhile_append_of_pos hnd,
      takeWhile_nondelim_colon, dropWhile_nondelim_colon, List.append_nil]
  rw [if_neg hne, if_neg (by simp [hall])]
  simp only [parseAfterHost]
  simp only [if_true]
  rw [List.takeWhile_append_of_pos (natToChars_digits s.port),
      List.dropWhile_append_of_pos (natToChars_digits s.port),
      takeWhile_digit_slash, dropWhile_digit_slash, List.append_nil]
  simp only [parsePort]
  simp only [if_true]
  simp only [parseQueryRest]
  simp only [if_true]
  rw [if_neg (natToChars_ne_nil s.port), charsToNat_natToChars, if_pos hp]

/-- A serialized URL body whose host is made of valid host characters
and whose port part is a colon-led digit string never begins with the
scheme characters. -/
theorem no_scheme_prefix (host pp q : Str) (hh : host.all hostOk = true)
    (hpp : pp = [] ∨ ∃ ds, ds ≠ [] ∧ (∀ c ∈ ds, isDigitChar c = true) ∧ pp = ':' :: ds) :
    ¬ (schemeChars <+: (host ++ (pp ++ '/' :: q))) := by
  intro hpre
  obtain ⟨t, ht⟩ := hpre
  have hhost : host <+: (host ++ (pp ++ '/' :: q)) := List.prefix_append host _
  have hsch : schemeChars <+: (host ++ (pp ++ '/' :: q)) := ⟨t, ht⟩
  have hhead : ∀ x rest, x :: rest = pp ++ '/' :: q → x = ':' ∨ x = '/' := by
    intro x rest hx
    rcases hpp with rfl | ⟨ds, hds, hdig, rfl⟩
    · rw [List.nil_append] at hx
      injection hx with h1 _
      exact Or.inr h1
    · rw [List.cons_append] at hx
      injection hx with h1 _
      exact Or.inl h1
  rcases List.prefix_or_prefix_of_prefix hsch hhost with hcase | hcase
  · have hmem : (':' : Char) ∈ host := hcase.subset (by decide)
    have := List.all_eq_true.mp hh ':' hmem
    exact absurd this (by decide)
  · obtain ⟨m, hm⟩ := hcase
    have hmt : m ++ t = pp ++ '/' :: q :=
      List.append_cancel_left (by rw [← List.append_assoc, hm]; exact ht)
    rcases host with _ | ⟨c0, _ | ⟨c1, _ | ⟨c2, _ | ⟨c3, _ | ⟨c4, _ | ⟨c5, h6⟩⟩⟩⟩⟩⟩
    · rw [List.nil_append] at hm
      subst hm
      rcases hhead _ _ hmt with h | h <;> exact absurd h (by decide)
    · simp only [schemeChars, List.cons_append, List.nil_append, List.cons.injEq] at hm
      obtain ⟨rfl, hm⟩ := hm
      subst hm
      rcases hhead _ _ hmt with h | h <;> exact absurd h (by decide)
    · simp only [schemeChars, List.cons_append, List.nil_append, List.cons.injEq] at hm
      obtain ⟨rfl, rfl, hm⟩ := hm
      subst hm
      rcases hhead _ _ hmt with h | h <;> exact absurd h (by decide)
    · simp only [schemeChars, List.cons_append, List.nil_append, List.cons.injEq] at hm
      obtain ⟨rfl, rfl, rfl, hm⟩ := hm
      subst hm
      rcases hhead _ _ hmt with h | h <;> exact absurd h (by decide)
    · simp only [schemeChars, List.cons_append, List.nil_append, List.cons.injEq] at hm
      obtain ⟨rfl, rfl, rfl, rfl, hm⟩ := hm
      subst hm
      rcases hhead _ _ hmt with h | h <;> exact absurd h (by decide)
    · simp only [schemeChars, List.cons_append, List.nil_append, List.cons.injEq] at hm
      obtain ⟨rfl, rfl, rfl, rfl, rfl, hm⟩ := hm
      subst hm
      rcases hpp with rfl | ⟨ds, hds, hdig, rfl⟩
      · rw [List.nil_append] at hmt
        injection hmt with h1 _
        exact absurd h1 (by decide)
      · rw [List.cons_append] at hmt
        injection hmt with h1 h2
        cases ds with
        | nil => exact hds rfl
        | cons d ds2 =>
          rw [List.cons_append] at h2
          injection h2 with h3 _
          have := hdig d (List.mem_cons_self d ds2)
          rw [← h3] at this
          exact absurd this (by decide)
    · simp only [schemeChars, List.cons_append, List.nil_append, List.cons.injEq] at hm
      obtain ⟨rfl, rfl, rfl, rfl, rfl, h5, hm⟩ := hm
      have hmem : (':' : Char) ∈
          'h' :: 't' :: 't' :: 'p' :: 's' :: c5 :: h6 := by
        rw [h5]
        simp
      have := List.all_eq_true.mp hh ':' hmem
      exact absurd this (by decide)

/-- The tail of a serialized valid URL never begins with `https://`. -/
theorem serializeTail_no_scheme {u : Url} (h : validUrl u = true) :
    ¬ (schemeChars <+: serializeTail u) := by
  obtain ⟨host, port, query⟩ := u
  simp only [validUrl, Bool.and_eq_true, decide_eq_true_eq] at h
  obtain ⟨⟨hne, hall⟩, hport⟩ := h
  unfold serializeTail
  simp only [List.append_assoc]
  apply no_scheme_prefix host (portPart port) (queryPart query) hall
  cases port with
  | none => exact Or.inl rfl
  | some n =>
    exact Or.inr ⟨natToChars n, natToChars_ne_nil n, natToChars_digits n, rfl⟩

/-- Inversion of a successful `fetch_token` run: the provider was found,
credentials arrived, signing succeeded, the assembled URL reparsed, and
the token is the scheme-stripped serialization of the final URL. -/
theorem fetchToken_ok_inv {s : Signer} {ext : Externals} {env : Env} {t : SigTime} {tok : Str}
    (h : fetchToken s ext env t = .ok tok) :
    ∃ c u, env.providerFound = true ∧ env.credResult = .ok c ∧
      ext.signResult (assembledUrl s) = none ∧ parseUrl (assembledUrl s) = some u ∧
      tok = (serializeUrl (appendAll u (signingQueryParams ext c
        (resolveRegion s.region env.ambientRegion) t s.expires_in (str "rds-db")
        s.host s.port s.user))).drop 8 := by
  obtain ⟨pf, cr, amb⟩ := env
  cases pf
  · exact absurd h (by simp [fetchToken])
  · cases cr with
    | error e => exact absurd h (by simp [fetchToken])
    | ok c =>
      simp only [fetchToken, fetchTokenCore, fetchTokenStages] at h
      generalize hsr : ext.signResult (assembledUrl s) = sr at h
      cases sr with
      | some e => exact absurd h (by simp)
      | none =>
        simp only [] at h
        generalize hpu : parseUrl (assembledUrl s) = pu at h
        cases pu with
        | none => exact absurd h (by simp)
        | some u =>
          simp only [Except.ok.injEq] at h
          exact ⟨c, u, rfl, rfl, rfl, rfl, h.symm⟩


/-- The fixed part of the assembled query is never empty. -/
theorem baseQuery_ne_nil (u : Str) : baseQuery u ≠ [] :=
  fun h => List.cons_ne_nil _ _ h

/-! ## The claims -/

/-- C1: the region embedded in the credential scope is the configured
region when present, else the ambient region, else the literal
`us-east-1`; `fetch_token` resolves it exactly this way and threads the
resolved region into the credential scope of the signing parameters. -/
theorem c1_region_fallback_chain :
    (∀ (r : Str) (amb : Option Str), resolveRegion (some r) amb = r) ∧
    (∀ a : Str, resolveRegion none (some a) = a) ∧
    resolveRegion none none = str "us-east-1" ∧
    (∀ (s : Signer) (ext : Externals) (c : Credentials) (amb : Option Str) (t : SigTime),
      fetchTokenCore s ext c amb t =
        fetchTokenStages s ext c t (resolveRegion s.region amb) (str "rds-db")) ∧
    (∀ (ext : Externals) (c : Credentials) (region : Str) (t : SigTime) (e : Nat)
      (sv hn : Str) (p : Nat) (uu : Str),
      (signingQueryParams ext c region t e sv hn p uu)[1]? =
        some (str "X-Amz-Credential", c.access_key_id ++ '/' :: credScope t.date region sv)) := by
  refine ⟨?_, ?_, ?_, ?_, ?_⟩ <;> intros <;> rfl

/-- C2: a successful token never begins with `https://`; prepending
`https://` and parsing recovers exactly the final URL — host, port and
query parameters — that `fetch_token` serialized. -/
theorem c2_scheme_stripping_roundtrip (s : Signer) (ext : Externals) (env : Env)
    (t : SigTime) (tok : Str) (h : fetchToken s ext env t = .ok tok) :
    ¬ (str "https://" <+: tok) ∧
    ∃ c u, env.credResult = Except.ok c ∧ parseUrl (assembledUrl s) = some u ∧
      (str "https://" ++ tok = serializeUrl (appendAll u (signingQueryParams ext c
        (resolveRegion s.region env.ambientRegion) t s.expires_in (str "rds-db")
        s.host s.port s.user)) ∧
      parseUrl (str "https://" ++ tok) = some (appendAll u (signingQueryParams ext c
        (resolveRegion s.region env.ambientRegion) t s.expires_in (str "rds-db")
        s.host s.port s.user))) := by
  obtain ⟨c, u, hpf, hcr, hsr, hpu, htok⟩ := fetchToken_ok_inv h
  have hval : validUrl (appendAll u (signingQueryParams ext c
      (resolveRegion s.region env.ambientRegion) t s.expires_in (str "rds-db")
      s.host s.port s.user)) = true :=
    appendAll_valid _ (parseUrl_valid hpu)
  have hser : str "https://" ++ tok = serializeUrl (appendAll u (signingQueryParams ext c
      (resolveRegion s.region env.ambientRegion) t s.expires_in (str "rds-db")
      s.host s.port s.user)) := by
    rw [htok, serializeUrl_drop]
    rfl
  refine ⟨?_, c, u, hcr, hpu, hser, ?_⟩
  · rw [htok, serializeUrl_drop, str_https]
    exact serializeTail_no_scheme hval
  · rw [hser]
    exact parse_serialize hval

/-- C2 witness: the scheme-stripping round trip at the concrete run. -/
theorem c2_scheme_stripping_roundtrip_witness :
    ¬ (str "https://" <+: cTok) ∧
    ∃ c u, cEnv.credResult = Except.ok c ∧ parseUrl (assembledUrl cSigner) = some u ∧
      (str "https://" ++ cTok = serializeUrl (appendAll u (signingQueryParams cExt c
        (resolveRegion cSigner.region cEnv.ambientRegion) cTime cSigner.expires_in
        (str "rds-db") cSigner.host cSigner.port cSigner.user)) ∧
      parseUrl (str "https://" ++ cTok) = some (appendAll u (signingQueryParams cExt c
        (resolveRegion cSigner.region cEnv.ambientRegion) cTime cSigner.expires_in
        (str "rds-db") cSigner.host cSigner.port cSigner.user))) :=
  c2_scheme_stripping_roundtrip cSigner cExt cEnv cTime cTok rfl

/-- C3: when the credential and external signing steps succeed but the
assembled URL fails to reparse, `fetch_token` fails and the error is a
`ParseError`, not a `SignerError`. -/
theorem c3_unparsable_url_is_parse_error (s : Signer) (ext : Externals) (env : Env)
    (t : SigTime) (c : Credentials) (h1 : env.providerFound = true)
    (h2 : env.credResult = .ok c) (h3 : ext.signResult (assembledUrl s) = none)
    (h4 : parseUrl (assembledUrl s) = none) :
    fetchToken s ext env t = .error (.ParseError parseFailMsg) := by
  obtain ⟨pf, cr, amb⟩ := env
  simp only at h1 h2 h3 h4
  subst h1
  subst h2
  simp only [fetchToken, fetchTokenCore, fetchTokenStages, h3, h4]

/-- C3 witness: the concrete signer whose host contains a space fails
to reparse and yields a `ParseError`. -/
theorem c3_unparsable_url_is_parse_error_witness :
    fetchToken cBadSigner cExt cEnv cTime = .error (.ParseError parseFailMsg) :=
  c3_unparsable_url_is_parse_error cBadSigner cExt cEnv cTime cCreds rfl rfl rfl (by decide)

/-- C4: the fourth signing query parameter is `X-Amz-Expires` carrying
the configured expiry in whole seconds; a successful `fetch_token`
builds its output from the signing parameters at the signer's
`expires_in`; and two parameter lists differing only in the expiry agree
on every parameter other than `X-Amz-Expires` and the derived
`X-Amz-Signature`. -/
theorem c4_expires_parameter (ext : Externals) (c : Credentials) (region : Str) (t : SigTime)
    (e1 e2 : Nat) (sv hn : Str) (p : Nat) (uu : Str) :
    ((signingQueryParams ext c region t e1 sv hn p uu)[3]? =
      some (str "X-Amz-Expires", natToChars e1)) ∧
    (signingQueryParams ext c region t e1 sv hn p uu).filter nonDerived =
      (signingQueryParams ext c region t e2 sv hn p uu).filter nonDerived ∧
    (∀ (s : Signer) (env : Env) (c2 : Credentials) (u : Url),
      env.providerFound = true → env.credResult = .ok c2 →
      ext.signResult (assembledUrl s) = none → parseUrl (assembledUrl s) = some u →
      fetchToken s ext env t = .ok ((serializeUrl (appendAll u (signingQueryParams ext c2
        (resolveRegion s.region env.ambientRegion) t s.expires_in (str "rds-db")
        s.host s.port s.user))).drop 8)) := by
  refine ⟨rfl, ?_, ?_⟩
  · obtain ⟨ak, sk, st⟩ := c
    cases st <;> rfl
  · intro s env c2 u h1 h2 h3 h4
    obtain ⟨pf, cr, amb⟩ := env
    simp only at h1 h2 h3 h4
    subst h1
    subst h2
    simp only [fetchToken, fetchTokenCore, fetchTokenStages, h3, h4]

/-- C4 witness: the concrete run produces exactly the serialization of
the appended signing parameters at the configured expiry. -/
theorem c4_expires_parameter_witness :
    fetchToken cSigner cExt cEnv cTime = .ok ((serializeUrl (appendAll
      ⟨cSigner.host, some cSigner.port, some (baseQuery cSigner.user)⟩
      (signingQueryParams cExt cCreds
        (resolveRegion cSigner.region cEnv.ambientRegion) cTime cSigner.expires_in
        (str "rds-db") cSigner.host cSigner.port cSigner.user))).drop 8) :=
  (c4_expires_parameter cExt cCreds (str "us-east-1") cTime 900 3600 (str "rds-db")
    cSigner.host cSigner.port cSigner.user).2.2 cSigner cEnv cCreds
      ⟨cSigner.host, some cSigner.port, some (baseQuery cSigner.user)⟩
      rfl rfl rfl (by decide)

/-- C5 counterexample: with database user `a/b` the output carries
`DBUser=a/b` verbatim, not the URI-component encoding `DBUser=a%2Fb`,
so the output URL does not percent-encode the user under the
URI-component rule. -/
theorem c5_output_not_component_encoded :
    (fetchToken cSlashSigner cExt cEnv cTime).toOption.map (fun tok =>
      (containsSeq (str "DBUser=a/b") tok,
       containsSeq (str "DBUser=" ++ uriComponentEncode (str "a/b")) tok)) =
      some (true, false) ∧
    uriComponentEncode (str "a/b") = str "a%2Fb" := by
  set_option maxRecDepth 8000 in
  constructor <;> decide

/-- C5 amended: the canonical request's query pairs are URI-component
encoded — a character stays unescaped exactly when it is alphanumeric
or `-`, `_`, `.`, `~` — and sorted lexicographically by name with ties
broken by value; the output URL instead carries the `DBUser` value as
written into the assembled query string. -/
theorem c5_canonical_encoding_and_sorting (user : Str) :
    List.Sorted PairLe (canonicalQueryPairs user) ∧
    (uriComponentEncode (str "DBUser"), uriComponentEncode user) ∈ canonicalQueryPairs user ∧
    (∀ ch : Char, encodeChar ch = [ch] ↔ isUnreservedChar ch = true) ∧
    (∀ (s : Signer) (ext : Externals) (env : Env) (t : SigTime) (tok : Str),
      s.host ≠ [] → s.host.all hostOk = true → s.port ≤ 65535 →
      fetchToken s ext env t = Except.ok tok →
      ∃ r, tok = s.host ++ portPart (if s.port = 443 then none else some s.port) ++
        '/' :: '?' :: (baseQuery s.user ++ r)) := by
  refine ⟨List.sorted_insertionSort PairLe _, ?_, ?_, ?_⟩
  · have hperm := List.perm_insertionSort PairLe
      [(uriComponentEncode (str "Action"), uriComponentEncode (str "connect")),
       (uriComponentEncode (str "DBUser"), uriComponentEncode user)]
    exact hperm.mem_iff.mpr (by simp)
  · intro ch
    constructor
    · intro hh
      by_contra hu
      unfold encodeChar at hh
      rw [if_neg hu] at hh
      exact absurd hh (by simp)
    · intro hu
      unfold encodeChar
      rw [if_pos hu]
  · intro s ext env t tok hne hall hp htk
    obtain ⟨c0, u, hpf, hcr, hsr, hpu, htok⟩ := fetchToken_ok_inv htk
    rw [parseUrl_assembled s hne hall hp] at hpu
    obtain rfl := Option.some.inj hpu
    obtain ⟨r, hr⟩ := appendAll_query_extends
      (signingQueryParams ext c0 (resolveRegion s.region env.ambientRegion) t
        s.expires_in (str "rds-db") s.host s.port s.user)
      ⟨s.host, if s.port = 443 then none else some s.port, some (baseQuery s.user)⟩
      (baseQuery s.user) rfl (baseQuery_ne_nil s.user)
    refine ⟨r, ?_⟩
    rw [htok, serializeUrl_drop]
    unfold serializeTail
    rw [appendAll_host, appendAll_port, hr]
    rfl

/-- C5 amended witness: the concrete run instantiating the output-shape
conjunct with its hypotheses discharged. -/
theorem c5_canonical_encoding_and_sorting_witness :
    ∃ r, cTok = cSigner.host ++ portPart (if cSigner.port = 443 then none
      else some cSigner.port) ++ '/' :: '?' :: (baseQuery cSigner.user ++ r) :=
  (c5_canonical_encoding_and_sorting (str "appuser")).2.2.2 cSigner cExt cEnv cTime cTok
    (by decide) (by decide) (by decide) rfl

/-- C6: with a frozen clock (every call reads the same time) and fixed
configuration, externals and environment, two calls of `fetch_token`
yield identical results. -/
theorem c6_determinism_frozen_clock (s : Signer) (ext : Externals) (env : Env)
    (clock : Nat → SigTime) (hfrozen : ∀ i j, clock i = clock j) :
    fetchTokenAtCall s ext env clock 0 = fetchTokenAtCall s ext env clock 1 := by
  unfold fetchTokenAtCall
  rw [hfrozen 0 1]

/-- C6 witness: frozen-clock determinism at the concrete configuration
under a constant clock. -/
theorem c6_determinism_frozen_clock_witness :
    fetchTokenAtCall cSigner cExt cEnv (fun _ => cTime) 0 =
      fetchTokenAtCall cSigner cExt cEnv (fun _ => cTime) 1 :=
  c6_determinism_frozen_clock cSigner cExt cEnv (fun _ => cTime) (fun _ _ => rfl)

/-- C7 counterexample: the builder performs no validation — a signer
with an empty host, one with an empty user, and one with a zero
validity duration are all constructible through the builder. -/
theorem c7_builder_counterexample :
    (Signer.builder.host []).build.host = [] ∧
    (Signer.builder.user []).build.user = [] ∧
    (Signer.builder.expires_in 0).build.expires_in = 0 :=
  ⟨rfl, rfl, rfl⟩

/-- C7 amended: the builder does not make host or user required; it
starts from the defaults (host `localhost`, user `postgres`, 900-second
expiry, port 5432, no region) and `build` returns the wrapped signer
without validation, so a signer built with no setter calls has a
non-empty host and user and a positive validity duration, but setters
accept empty strings and a zero duration. -/
theorem c7_builder_defaults :
    Signer.builder.build = Signer.default ∧
    Signer.default.host ≠ [] ∧ Signer.default.user ≠ [] ∧
    0 < Signer.default.expires_in ∧ Signer.default.port = 5432 ∧
    Signer.default.region = none ∧
    (∀ b : SignerBuilder, b.build = b.signer) := by
  refine ⟨rfl, ?_, ?_, ?_, rfl, rfl, fun _ => rfl⟩ <;> decide

/-- C8: the signing key derives through the exact four-step HMAC chain
with the literals `AWS4` and `aws4_request`; `fetch_token` passes
exactly the service literal `rds-db`, and the final signature parameter
is computed with that key. -/
theorem c8_sigv4_chain_rds_db :
    (∀ (hm : Str → Str → Str) (sec d r : Str),
      deriveSigningKey hm sec d r (str "rds-db") =
        hm (hm (hm (hm (str "AWS4" ++ sec) d) r) (str "rds-db")) (str "aws4_request")) ∧
    (∀ (s : Signer) (ext : Externals) (c : Credentials) (amb : Option Str) (t : SigTime),
      fetchTokenCore s ext c amb t =
        fetchTokenStages s ext c t (resolveRegion s.region amb) (str "rds-db")) ∧
    (∀ (ext : Externals) (c : Credentials) (region : Str) (t : SigTime) (e : Nat)
      (hn : Str) (p : Nat) (uu : Str),
      (signingQueryParams ext c region t e (str "rds-db") hn p uu).getLast? =
        some (str "X-Amz-Signature",
          ext.hmac (deriveSigningKey ext.hmac c.secret_access_key t.date region (str "rds-db"))
            (stringToSign ext t (credScope t.date region (str "rds-db"))
              (canonicalRequest ext hn p uu)))) := by
  refine ⟨?_, ?_, ?_⟩ <;> intros
  · rfl
  · rfl
  · unfold signingQueryParams signatureValue
    exact List.getLast?_concat _

/-- C9: `fetch_token` always returns `Ok` or a typed error, and on
success the final URL's string form is exactly `https://` followed by
the returned token, so the eight-character strip removes exactly the
scheme prefix. -/
theorem c9_total_and_exact_scheme_strip (s : Signer) (ext : Externals) (env : Env)
    (t : SigTime) :
    (∃ e, fetchToken s ext env t = Except.error e) ∨
    (∃ tok c u, fetchToken s ext env t = Except.ok tok ∧
      env.credResult = Except.ok c ∧ parseUrl (assembledUrl s) = some u ∧
      serializeUrl (appendAll u (signingQueryParams ext c
        (resolveRegion s.region env.ambientRegion) t s.expires_in (str "rds-db")
        s.host s.port s.user)) = str "https://" ++ tok) := by
  cases hres : fetchToken s ext env t with
  | error e => exact Or.inl ⟨e, rfl⟩
  | ok tok =>
    obtain ⟨c, u, hpf, hcr, hsr, hpu, htok⟩ := fetchToken_ok_inv hres
    right
    refine ⟨tok, c, u, rfl, hcr, hpu, ?_⟩
    rw [htok, serializeUrl_drop]
    rfl

/-- C10: each builder setter changes only its own field of the wrapped
signer and leaves the other four unchanged, so applying setters in
either order builds the same signer. -/
theorem c10_setters_frame_and_commute :
    (∀ b v, (SignerBuilder.expires_in b v).signer = { b.signer with expires_in := v }) ∧
    (∀ b v, (SignerBuilder.host b v).signer = { b.signer with host := v }) ∧
    (∀ b v, (SignerBuilder.port b v).signer = { b.signer with port := v }) ∧
    (∀ b v, (SignerBuilder.user b v).signer = { b.signer with user := v }) ∧
    (∀ b v, (SignerBuilder.region b v).signer = { b.signer with region := some v }) ∧
    (∀ b v w, ((SignerBuilder.expires_in b v).host w).build =
      ((SignerBuilder.host b w).expires_in v).build) ∧
    (∀ b v w, ((SignerBuilder.expires_in b v).port w).build =
      ((SignerBuilder.port b w).expires_in v).build) ∧
    (∀ b v w, ((SignerBuilder.expires_in b v).user w).build =
      ((SignerBuilder.user b w).expires_in v).build) ∧
    (∀ b v w, ((SignerBuilder.expires_in b v).region w).build =
      ((SignerBuilder.region b w).expires_in v).build) ∧
    (∀ b v w, ((SignerBuilder.host b v).port w).build =
      ((SignerBuilder.port b w).host v).build) ∧
    (∀ b v w, ((SignerBuilder.host b v).user w).build =
      ((SignerBuilder.user b w).host v).build) ∧
    (∀ b v w, ((SignerBuilder.host b v).region w).build =
      ((SignerBuilder.region b w).host v).build) ∧
    (∀ b v w, ((SignerBuilder.port b v).user w).build =
      ((SignerBuilder.user b w).port v).build) ∧
    (∀ b v w, ((SignerBuilder.port b v).region w).build =
      ((SignerBuilder.region b w).port v).build) ∧
    (∀ b v w, ((SignerBuilder.user b v).region w).build =
      ((SignerBuilder.region b w).user v).build) := by
  refine ⟨?_, ?_, ?_, ?_, ?_, ?_, ?_, ?_, ?_, ?_, ?_, ?_, ?_, ?_, ?_⟩ <;> intros <;> rfl

end RdsSigner
